import Mathlib

/-!
FXT Telemetry SDK — shallow embedding and verification.

Lean model of the telemetry aggregation and delivery pipeline of the
FXT form-experience telemetry script (single-file browser SDK).
Each definition mirrors a function of the source script:

* the event queue and batcher (`enqueue` / `flush`),
* the per-field metric store and its mutators
  (`initFieldMetrics`, `onFocus`, `onBlur`, `onChange`),
* the pain-point aggregator (`sendFieldMetricsSummary`),
* the structural-change coalescer (`observeMutations` callback),
* the lifecycle controller (`FXT.init` / `FXT.stop`).

JS machine details that matter are modelled explicitly: `Array.splice`
as `take`/`drop`, truthiness of `FXT._fieldFocusStartTime` (both `null`
and `0` are falsy), and the absence of a `try`/`catch` around
`document.querySelector` inside `FXT.init`.
-/

namespace FXT

/- ---------------------------------------------------------------
   Event queue and sender  (source: `enqueue`, `flush`)
   --------------------------------------------------------------- -/

/-- Outcome of one `fetch` POST of a batch: the promise resolves
(with an ok or an HTTP error status) or rejects at the network level. -/
inductive SendOutcome where
  | success
  | httpError
  | networkFail
  deriving DecidableEq, Repr

/-- Model of `flush()` up to the dispatch point: no-op on an empty buffer,
otherwise `events.splice(0, batchSize)` removes the batch from the
front.  Returns the remaining buffer and the list of dispatched
batches (empty or a singleton). -/
def flushQ (batchSize : Nat) (buf : List α) : List α × List (List α) :=
  if buf.isEmpty then (buf, [])
  else (buf.drop batchSize, [buf.take batchSize])

/-- Model of `enqueue(evt)`: push to the back; if the buffer length reached
`batchSize`, flush immediately.  Returns the buffer afterwards and the
batches dispatched by the call. -/
def enqueueQ (batchSize : Nat) (e : α) (buf : List α) : List α × List (List α) :=
  let buf2 := buf ++ [e]
  if batchSize ≤ buf2.length then flushQ batchSize buf2 else (buf2, [])

/-- The `fetch(...).then/.catch` completion of a flush that dispatched
batch `buf.take batchSize`: `interim` is whatever was enqueued between
the dispatch and the completion callback.  On a network-level rejection
the parsed-back batch is concatenated in front of the current buffer;
on a resolved response (ok or HTTP error) the buffer is untouched. -/
def flushOutcome (batchSize : Nat) (buf interim : List α) (o : SendOutcome) :
    List α :=
  if buf.isEmpty then buf ++ interim
  else
    let batch := buf.take batchSize
    let rest := buf.drop batchSize
    match o with
    | .networkFail => batch ++ (rest ++ interim)
    | _ => rest ++ interim

/- ---------------------------------------------------------------
   Field metric store  (source: `initFieldMetrics`, `getFieldMetrics`)
   --------------------------------------------------------------- -/

/-- Snapshot of an element's `validity` flags as recorded by `onChange`. -/
structure ValidityInfo where
  valid : Bool
  patternMismatch : Bool
  valueMissing : Bool
  typeMismatch : Bool
  tooShort : Bool
  tooLong : Bool
  deriving DecidableEq, Repr

/-- One per-field record of `FXT._fieldMetrics` (created lazily by
`initFieldMetrics`). -/
structure FieldMetrics where
  focusCount : Nat := 0
  totalTimeSpent : Nat := 0
  editCount : Nat := 0
  validationFailures : Nat := 0
  lastValueLength : Nat := 0
  backspaceCount : Nat := 0
  pasteCount : Nat := 0
  clearCount : Nat := 0
  lastError : Option ValidityInfo := none
  deriving DecidableEq, Repr

/-- The fresh record `initFieldMetrics` stores on first interaction. -/
def freshMetrics : FieldMetrics := {}

/- ---------------------------------------------------------------
   Pain-point aggregator  (source: `sendFieldMetricsSummary`)
   --------------------------------------------------------------- -/

/-- The per-reason boolean breakdown attached to a pain point. -/
structure PainReasons where
  repeatedValidationFailures : Bool
  excessiveTimeSpent : Bool
  multipleReturns : Bool
  manyEdits : Bool
  multipleClears : Bool
  deriving DecidableEq, Repr

/-- One element of the emitted `painPoints` list. -/
structure PainPoint where
  field : String
  reasons : PainReasons
  deriving DecidableEq, Repr

/-- The `isPainPoint` disjunction of `sendFieldMetricsSummary`. -/
def isPainPoint (m : FieldMetrics) : Bool :=
  decide (m.validationFailures > 2) || decide (m.totalTimeSpent > 30000) ||
    decide (m.focusCount > 3) || decide (m.editCount > 5) ||
    decide (m.clearCount > 1)

/-- The `reasons` object pushed for a flagged field. -/
def reasonsOf (m : FieldMetrics) : PainReasons :=
  { repeatedValidationFailures := decide (m.validationFailures > 2)
    excessiveTimeSpent := decide (m.totalTimeSpent > 30000)
    multipleReturns := decide (m.focusCount > 3)
    manyEdits := decide (m.editCount > 5)
    multipleClears := decide (m.clearCount > 1) }

/-- The `for (const [fieldPath, metrics] of Object.entries(...))` loop
of `sendFieldMetricsSummary`, restricted to the `painPoints` it builds:
a field is pushed exactly when `isPainPoint` holds, in store order. -/
def painPointsOf : List (String × FieldMetrics) → List PainPoint
  | [] => []
  | (f, m) :: rest =>
      if isPainPoint m then
        { field := f, reasons := reasonsOf m } :: painPointsOf rest
      else painPointsOf rest

/- ---------------------------------------------------------------
   Field interaction tracker  (source: `onFocus`, `onBlur`, `onChange`)
   --------------------------------------------------------------- -/

/-- The piece of SDK state the field handlers mutate: the metric store
`FXT._fieldMetrics` (an object keyed by field path), the single
currently-focused field `FXT._currentFocusedField`, and the focus start
timestamp `FXT._fieldFocusStartTime`.  Timestamps are `performance.now()`
values in ms since page start, modelled as `Nat`. -/
structure TrackState where
  fieldMetrics : String → Option FieldMetrics
  currentFocusedField : Option String
  fieldFocusStartTime : Option Nat

/-- The state before any interaction: empty store, nothing focused. -/
def trackInit : TrackState :=
  { fieldMetrics := fun _ => none
    currentFocusedField := none
    fieldFocusStartTime := none }

/-- JS truthiness of `FXT._fieldFocusStartTime`: `null` and `0` are
falsy, any other number is truthy. -/
def truthyTime : Option Nat → Bool
  | none => false
  | some t => decide (t ≠ 0)

/-- The `onFocus` handler: lazily creates the field's metric record,
marks the field as the currently focused one, records the focus start
time and increments `focusCount`. -/
def onFocus (f : String) (now : Nat) (s : TrackState) : TrackState :=
  let m := (s.fieldMetrics f).getD freshMetrics
  { fieldMetrics := fun g =>
      if g = f then some { m with focusCount := m.focusCount + 1 }
      else s.fieldMetrics g
    currentFocusedField := some f
    fieldFocusStartTime := some now }

/-- The `onBlur` handler: when the blurred field is the currently
focused one and the stored start time is truthy, the elapsed time is
added to the field's `totalTimeSpent` (if its record exists); the
focused-field tracking is then cleared. -/
def onBlur (f : String) (now : Nat) (s : TrackState) : TrackState :=
  let store :=
    if s.currentFocusedField = some f ∧ truthyTime s.fieldFocusStartTime = true then
      match s.fieldMetrics f with
      | some m => fun g =>
          if g = f then
            some { m with totalTimeSpent :=
                     m.totalTimeSpent + (now - s.fieldFocusStartTime.getD 0) }
          else s.fieldMetrics g
      | none => s.fieldMetrics
    else s.fieldMetrics
  { fieldMetrics := store
    currentFocusedField := none
    fieldFocusStartTime := none }

/-- The `onChange` handler, as far as it touches the metric store.
`len` is `valueSummary && valueSummary.length` (`none` when the value
summary is `null`), `validity` the element's validity snapshot (`none`
when the element has no `validity`).  Increments `editCount`, detects a
clear (`lastValueLength > 0` followed by a zero-length sample),
re-samples `lastValueLength`, and counts a validation failure when the
snapshot is invalid. -/
def onChange (f : String) (len : Option Nat) (validity : Option ValidityInfo)
    (s : TrackState) : TrackState :=
  let m := (s.fieldMetrics f).getD freshMetrics
  let m := { m with editCount := m.editCount + 1 }
  let m :=
    if m.lastValueLength > 0 ∧ len = some 0 then
      { m with clearCount := m.clearCount + 1 }
    else m
  let m := { m with lastValueLength := len.getD 0 }
  let m :=
    match validity with
    | some v =>
        if v.valid = false then
          { m with validationFailures := m.validationFailures + 1
                   lastError := some v }
        else m
    | none => m
  { s with fieldMetrics := fun g => if g = f then some m else s.fieldMetrics g }

/-- View of a field's `totalTimeSpent` (0 when no record exists). -/
def ttsOf (s : TrackState) (f : String) : Nat :=
  match s.fieldMetrics f with
  | some m => m.totalTimeSpent
  | none => 0

/-- View of a field's record as `onChange` would first see it
(the lazily created fresh record when absent). -/
def mOf (s : TrackState) (f : String) : FieldMetrics :=
  (s.fieldMetrics f).getD freshMetrics

/-- A sequence of alternating focus/blur notices on one field: each
pair `(tf, tb)` is a focus at time `tf` followed by a blur at `tb`. -/
def applyFocusBlurPairs (f : String) : List (Nat × Nat) → TrackState → TrackState
  | [], s => s
  | (tf, tb) :: rest, s => applyFocusBlurPairs f rest (onBlur f tb (onFocus f tf s))

/- ---------------------------------------------------------------
   Structural-change coalescer  (source: `observeMutations` callback)
   --------------------------------------------------------------- -/

/-- Coalescer state: the mutation buffer `FXT._mutationBuffer` and the
number of outstanding coalescing timers (`FXT._mutationTimer` holds at
most one handle; we count outstanding timers to make the at-most-one
property provable rather than structural). -/
structure CoState (α : Type) where
  buffer : List α
  timers : Nat
  deriving Repr

/-- Initial coalescer state: empty buffer, no timer. -/
def coInit {α : Type} : CoState α := { buffer := [], timers := 0 }

/-- The `MutationObserver` callback: append the produced notices to the
buffer, then arm the coalescing timer only if none is outstanding. -/
def onChangeNotices {α : Type} (ns : List α) (s : CoState α) : CoState α :=
  let s1 : CoState α := { s with buffer := s.buffer ++ ns }
  if s1.timers = 0 then { s1 with timers := 1 } else s1

/-- The coalescing timer callback: splice at most
`maxMutationRecordsPerBatch` notices off the front of the buffer, emit
them as the single `dom-mutation` event record, and clear the timer.
Returns the new state and the emitted records. -/
def mutationTimerFire {α : Type} (maxRecords : Nat) (s : CoState α) :
    CoState α × List (List α) :=
  ({ buffer := s.buffer.drop maxRecords, timers := 0 }, [s.buffer.take maxRecords])

/-- One asynchronous turn of the coalescer: either the observer
callback delivers notices, or the armed timer fires. -/
inductive CoOp (α : Type) where
  | notices (ns : List α)
  | fire

/-- Small-step execution of the coalescer; a fire with no outstanding
timer cannot happen and is a no-op. -/
def coStep {α : Type} (maxRecords : Nat) (s : CoState α) : CoOp α → CoState α
  | .notices ns => onChangeNotices ns s
  | .fire => if s.timers = 0 then s else (mutationTimerFire maxRecords s).1

/- ---------------------------------------------------------------
   Session lifecycle controller  (source: `FXT.init`, `FXT.stop`)
   --------------------------------------------------------------- -/

/-- The recognised configuration options with their `DEFAULTS`. -/
structure Config where
  endpoint : String := "/api/fxt/events"
  formSelector : String := "form"
  batchSize : Nat := 25
  flushIntervalMs : Nat := 4000
  mutationBatchMs : Nat := 3000
  maxMutationRecordsPerBatch : Nat := 8
  sessionTtlMs : Nat := 3600000
  enableConsoleWrap : Bool := true
  debug : Bool := false
  deriving DecidableEq, Repr

/-- Result of `document.querySelector(formSelector)`: the call throws a
`SyntaxError` on an invalid selector, or returns `null`, or an element. -/
inductive QueryResult where
  | thrown
  | notFound
  | found
  deriving DecidableEq, Repr

/-- The host environment as `FXT.init` observes it. -/
structure HostEnv where
  queryResult : QueryResult
  freshSessionId : Nat
  hasMutationObserver : Bool
  deriving DecidableEq, Repr

/-- Event records at the granularity the lifecycle operations need
(payloads other than the session-end / analytics reason are elided;
the lifecycle claims concern flags, timers and the session, not event
payloads). -/
inductive Event where
  | sessionStart
  | sessionEnd (reason : String)
  | fieldAnalytics (reason : String)
  | heartbeat
  | domMutation
  deriving DecidableEq, Repr

/-- The lifecycle-level SDK state: the event queue, the log of batches
handed to the transport, the timers, the attached-capability flags and
the session fields. -/
structure FXTState where
  config : Config
  sessionId : Option Nat
  events : List Event
  sentBatches : List (List Event)
  flushTimerArmed : Bool
  heartbeatArmed : Bool
  mutationTimerArmed : Bool
  moAttached : Bool
  listenersAttached : Bool
  consoleWrapped : Bool
  isUnloading : Bool
  isInitialized : Bool
  deriving DecidableEq, Repr

/-- The state of the module-level `FXT` object before `init`. -/
def fxtInit0 : FXTState :=
  { config := {}
    sessionId := none
    events := []
    sentBatches := []
    flushTimerArmed := false
    heartbeatArmed := false
    mutationTimerArmed := false
    moAttached := false
    listenersAttached := false
    consoleWrapped := false
    isUnloading := false
    isInitialized := false }

/-- Lifecycle-level `enqueue`: append, flush when `batchSize` reached;
dispatched batches are appended to the transport log. -/
def enqueueL (e : Event) (s : FXTState) : FXTState :=
  let r := enqueueQ s.config.batchSize e s.events
  { s with events := r.1, sentBatches := s.sentBatches ++ r.2 }

/-- Lifecycle-level `flush` at the dispatch point. -/
def flushL (s : FXTState) : FXTState :=
  let r := flushQ s.config.batchSize s.events
  { s with events := r.1, sentBatches := s.sentBatches ++ r.2 }

/-- Lifecycle effect of `sendFieldMetricsSummary(reason)`: it enqueues
one `field-analytics` event record. -/
def sendSummaryL (reason : String) (s : FXTState) : FXTState :=
  enqueueL (.fieldAnalytics reason) s

/-- Model of `FXT.stop`: disconnect the observer, clear the initialized
flag, `clearTimeout(FXT._flushTimer)`, emit the analytics summary and
the session-end record, and flush.  The source clears only the flush
timer; `FXT._mutationTimer` is not touched. -/
def stop (s : FXTState) : FXTState :=
  let s := { s with moAttached := false }
  let s := { s with isInitialized := false }
  let s := { s with flushTimerArmed := false }
  let s := sendSummaryL ("stop") s
  let s := enqueueL (.sessionEnd ("stop")) s
  flushL s

/-- The tail of `FXT.init` after the `querySelector` call: attach the
form listeners and the mutation observer when the form was found, wrap
the console when configured, enqueue `session-start`, arm the periodic
flush timer and the heartbeat interval. -/
def initRest (cfg : Config) (env : HostEnv) (formFound : Bool) (s : FXTState) :
    FXTState :=
  let s :=
    if formFound then
      { s with listenersAttached := true, moAttached := env.hasMutationObserver }
    else s
  let s := if cfg.enableConsoleWrap then { s with consoleWrapped := true } else s
  let s := enqueueL .sessionStart s
  let s := { s with flushTimerArmed := true }
  { s with heartbeatArmed := true }

/-- Model of `FXT.init`: a second call while initialized returns the
existing instance untouched; otherwise the config is merged, a fresh
session id is taken and the initialized flag is set, and then
`document.querySelector` runs with no surrounding `try`: if it throws,
the exception escapes `init` (the partially mutated state persists,
as the JS mutations already happened).  The second component records a
propagated exception. -/
def init (cfg : Config) (env : HostEnv) (s : FXTState) : FXTState × Option Unit :=
  if s.isInitialized then (s, none)
  else
    let s := { s with config := cfg
                      sessionId := some env.freshSessionId
                      isUnloading := false
                      isInitialized := true }
    match env.queryResult with
    | .thrown => (s, some ())
    | .notFound => (initRest cfg env false s, none)
    | .found => (initRest cfg env true s, none)

/- ---------------------------------------------------------------
   Projection helpers for the lifecycle operations
   --------------------------------------------------------------- -/

@[simp] theorem enqueueL_flushTimerArmed (e : Event) (s : FXTState) :
    (enqueueL e s).flushTimerArmed = s.flushTimerArmed := rfl

@[simp] theorem enqueueL_mutationTimerArmed (e : Event) (s : FXTState) :
    (enqueueL e s).mutationTimerArmed = s.mutationTimerArmed := rfl

@[simp] theorem enqueueL_isInitialized (e : Event) (s : FXTState) :
    (enqueueL e s).isInitialized = s.isInitialized := rfl

@[simp] theorem enqueueL_sessionId (e : Event) (s : FXTState) :
    (enqueueL e s).sessionId = s.sessionId := rfl

@[simp] theorem enqueueL_heartbeatArmed (e : Event) (s : FXTState) :
    (enqueueL e s).heartbeatArmed = s.heartbeatArmed := rfl

@[simp] theorem enqueueL_listenersAttached (e : Event) (s : FXTState) :
    (enqueueL e s).listenersAttached = s.listenersAttached := rfl

@[simp] theorem enqueueL_moAttached (e : Event) (s : FXTState) :
    (enqueueL e s).moAttached = s.moAttached := rfl

@[simp] theorem flushL_flushTimerArmed (s : FXTState) :
    (flushL s).flushTimerArmed = s.flushTimerArmed := rfl

@[simp] theorem flushL_mutationTimerArmed (s : FXTState) :
    (flushL s).mutationTimerArmed = s.mutationTimerArmed := rfl

@[simp] theorem flushL_isInitialized (s : FXTState) :
    (flushL s).isInitialized = s.isInitialized := rfl

@[simp] theorem flushL_sessionId (s : FXTState) :
    (flushL s).sessionId = s.sessionId := rfl

@[simp] theorem flushL_heartbeatArmed (s : FXTState) :
    (flushL s).heartbeatArmed = s.heartbeatArmed := rfl

/- ---------------------------------------------------------------
   Claim theorems
   --------------------------------------------------------------- -/

/-- C1: `enqueue` appends the event at the back of the buffer and, on
the enqueue that brings the length to `batchSize`, triggers exactly one
immediate flush (the call dispatches exactly one batch, draining the
buffer); `flush` is a no-op on the empty buffer, and on a nonempty
buffer removes at most `batchSize` records from the front into one
batch, preserving their relative order (the batch concatenated with the
remainder reconstructs the buffer). -/
theorem c1_enqueue_batch_trigger {α : Type} (bs : Nat) (buf : List α) (e : α) :
    (buf.length + 1 < bs → enqueueQ bs e buf = (buf ++ [e], [])) ∧
    (buf.length + 1 = bs → enqueueQ bs e buf = ([], [buf ++ [e]])) ∧
    flushQ bs ([] : List α) = ([], []) ∧
    (buf ≠ [] →
      (flushQ bs buf).2 = [buf.take bs] ∧
      buf.take bs ++ (flushQ bs buf).1 = buf ∧
      (buf.take bs).length ≤ bs) := by
  refine ⟨?_, ?_, ?_, ?_⟩
  · intro h
    have hlt : ¬ bs ≤ buf.length + 1 := by omega
    simp [enqueueQ, hlt]
  · intro h
    have hlen : (buf ++ [e]).length = bs := by
      simp only [List.length_append, List.length_cons, List.length_nil]
      omega
    have hle : bs ≤ (buf ++ [e]).length := le_of_eq hlen.symm
    have hne : (buf ++ [e]).isEmpty = false := by simp
    simp only [enqueueQ, if_pos hle, flushQ, hne, Bool.false_eq_true, if_false]
    rw [List.drop_eq_nil_of_le (le_of_eq hlen), List.take_of_length_le (le_of_eq hlen)]
  · simp [flushQ]
  · intro h
    have hne : buf.isEmpty = false := by simpa using h
    refine ⟨?_, ?_, ?_⟩
    · simp [flushQ, hne]
    · simp [flushQ, hne]
    · simp only [List.length_take]
      omega

/-- Closed witness for C1: with the default batch size 25, enqueuing
the 25th event dispatches exactly that one full batch. -/
theorem c1_witness :
    (List.range 24).length + 1 = 25 ∧
    enqueueQ 25 (99 : Nat) (List.range 24) = ([], [List.range 24 ++ [99]]) :=
  ⟨by decide, (c1_enqueue_batch_trigger 25 (List.range 24) 99).2.1 (by decide)⟩

/-- C2: a dispatched batch is requeued exactly on a network-level
failure: the batch (the first `bs` records of the buffer at dispatch
time, in their original order) is reinserted at the front, ahead of the
undispatched remainder and of everything enqueued since; on a received
HTTP-level error response (or success) the batch is not reinserted. -/
theorem c2_requeue_iff_network_failure {α : Type} (bs : Nat)
    (buf interim : List α) (h : buf ≠ []) :
    flushOutcome bs buf interim .networkFail
      = buf.take bs ++ (buf.drop bs ++ interim) ∧
    buf.take bs ++ buf.drop bs = buf ∧
    flushOutcome bs buf interim .httpError = buf.drop bs ++ interim ∧
    flushOutcome bs buf interim .success = buf.drop bs ++ interim := by
  have hne : buf.isEmpty = false := by simpa using h
  refine ⟨?_, List.take_append_drop bs buf, ?_, ?_⟩ <;>
    simp [flushOutcome, hne]

/-- Closed witness for C2: a three-event buffer flushed with batch size
25 comes back in full, ahead of two events enqueued in the interim,
exactly when the send fails at the network level. -/
theorem c2_witness :
    flushOutcome 25 [0, 1, 2] [8, 9] SendOutcome.networkFail
      = [0, 1, 2] ++ ([] ++ [8, 9]) ∧
    flushOutcome 25 [0, 1, 2] [8, 9] SendOutcome.httpError = [] ++ [8, 9] := by
  have h := c2_requeue_iff_network_failure 25 [0, 1, 2] [8, 9] (by decide)
  exact ⟨by
    have h1 := h.1
    simpa using h1, by
    have h3 := h.2.2.1
    simpa using h3⟩

/-- Every member of the built pain-point list comes from a store entry
that satisfies the heuristic, and carries that entry's reason
breakdown. -/
theorem painPointsOf_mem_src {entries : List (String × FieldMetrics)}
    {p : PainPoint} (hp : p ∈ painPointsOf entries) :
    ∃ m, (p.field, m) ∈ entries ∧ isPainPoint m = true ∧ p.reasons = reasonsOf m := by
  induction entries with
  | nil => simp [painPointsOf] at hp
  | cons hd tl ih =>
      obtain ⟨f, m⟩ := hd
      by_cases hpp : isPainPoint m = true
      · rw [painPointsOf, if_pos hpp] at hp
        rcases List.mem_cons.mp hp with heq | htl
        · subst heq
          exact ⟨m, List.mem_cons_self _ _, hpp, rfl⟩
        · obtain ⟨m', h1, h2, h3⟩ := ih htl
          exact ⟨m', List.mem_cons_of_mem _ h1, h2, h3⟩
      · rw [painPointsOf, if_neg hpp] at hp
        obtain ⟨m', h1, h2, h3⟩ := ih hp
        exact ⟨m', List.mem_cons_of_mem _ h1, h2, h3⟩

/-- A store entry that satisfies the heuristic is pushed onto the
pain-point list. -/
theorem painPointsOf_of_mem {entries : List (String × FieldMetrics)}
    {f : String} {m : FieldMetrics} (hmem : (f, m) ∈ entries)
    (hpp : isPainPoint m = true) :
    ({ field := f, reasons := reasonsOf m } : PainPoint) ∈ painPointsOf entries := by
  induction entries with
  | nil => simp at hmem
  | cons hd tl ih =>
      obtain ⟨g, m'⟩ := hd
      rcases List.mem_cons.mp hmem with heq | htl
      · obtain ⟨h1, h2⟩ := Prod.mk.injEq .. ▸ heq
        subst h1; subst h2
        rw [painPointsOf, if_pos hpp]
        exact List.mem_cons_self _ _
      · by_cases h' : isPainPoint m' = true
        · rw [painPointsOf, if_pos h']
          exact List.mem_cons_of_mem _ (ih htl)
        · rw [painPointsOf, if_neg h']
          exact ih htl

/-- In a store whose keys are distinct (as `Object.entries` of a JS
object always yields), the metric record of a key is unique. -/
theorem store_key_unique {entries : List (String × FieldMetrics)}
    {f : String} {m m' : FieldMetrics}
    (hnd : (entries.map Prod.fst).Nodup)
    (h1 : (f, m) ∈ entries) (h2 : (f, m') ∈ entries) : m = m' := by
  induction entries with
  | nil => simp at h1
  | cons hd tl ih =>
      rw [List.map_cons, List.nodup_cons] at hnd
      rcases List.mem_cons.mp h1 with e1 | t1 <;>
        rcases List.mem_cons.mp h2 with e2 | t2
      · rw [← e1] at e2
        exact congrArg Prod.snd e2.symm
      · exfalso
        apply hnd.1
        rw [← e1]
        have hf : f ∈ tl.map Prod.fst := List.mem_map_of_mem Prod.fst t2
        exact hf
      · exfalso
        apply hnd.1
        rw [← e2]
        have hf : f ∈ tl.map Prod.fst := List.mem_map_of_mem Prod.fst t1
        exact hf
      · exact ih hnd.2 t1 t2

/-- C3: for every field metric record in the store when `summarize`
runs, the field appears in the emitted `painPoints` list iff at least
one of the five threshold conditions holds, and every pain point
carried for that field has its `reasons` booleans true exactly for the
thresholds that are exceeded. -/
theorem c3_painpoints_iff_thresholds
    (entries : List (String × FieldMetrics))
    (hnd : (entries.map Prod.fst).Nodup)
    (f : String) (m : FieldMetrics) (hmem : (f, m) ∈ entries) :
    ((∃ p ∈ painPointsOf entries, p.field = f) ↔
      (m.validationFailures > 2 ∨ m.totalTimeSpent > 30000 ∨
       m.focusCount > 3 ∨ m.editCount > 5 ∨ m.clearCount > 1)) ∧
    (∀ p ∈ painPointsOf entries, p.field = f →
      ((p.reasons.repeatedValidationFailures = true ↔ m.validationFailures > 2) ∧
       (p.reasons.excessiveTimeSpent = true ↔ m.totalTimeSpent > 30000) ∧
       (p.reasons.multipleReturns = true ↔ m.focusCount > 3) ∧
       (p.reasons.manyEdits = true ↔ m.editCount > 5) ∧
       (p.reasons.multipleClears = true ↔ m.clearCount > 1))) := by
  have hpp_iff : isPainPoint m = true ↔
      (m.validationFailures > 2 ∨ m.totalTimeSpent > 30000 ∨
       m.focusCount > 3 ∨ m.editCount > 5 ∨ m.clearCount > 1) := by
    simp [isPainPoint, Bool.or_eq_true, decide_eq_true_eq, or_assoc]
  constructor
  · constructor
    · rintro ⟨p, hp, hpf⟩
      obtain ⟨m', h1, h2, _⟩ := painPointsOf_mem_src hp
      rw [hpf] at h1
      rw [← hpp_iff]
      rw [store_key_unique hnd hmem h1]
      exact h2
    · intro hdisj
      exact ⟨_, painPointsOf_of_mem hmem (hpp_iff.mpr hdisj), rfl⟩
  · intro p hp hpf
    obtain ⟨m', h1, _, h3⟩ := painPointsOf_mem_src hp
    rw [hpf] at h1
    have hm : m' = m := store_key_unique hnd h1 hmem
    subst hm
    rw [h3]
    simp [reasonsOf, decide_eq_true_eq]

/-- Closed witness for C3: a one-field store whose record exceeds only
the edit threshold yields that field as a pain point with exactly the
`manyEdits` reason set. -/
theorem c3_witness :
    (([(("b" : String), ({ editCount := 6 } : FieldMetrics))].map Prod.fst).Nodup ∧
      (("b" : String), ({ editCount := 6 } : FieldMetrics)) ∈
        [(("b" : String), ({ editCount := 6 } : FieldMetrics))]) ∧
    ((∃ p ∈ painPointsOf [(("b" : String), ({ editCount := 6 } : FieldMetrics))],
        p.field = "b") ∧
      ∀ p ∈ painPointsOf [(("b" : String), ({ editCount := 6 } : FieldMetrics))],
        p.field = "b" → p.reasons.manyEdits = true) := by
  have h := c3_painpoints_iff_thresholds
    [(("b" : String), ({ editCount := 6 } : FieldMetrics))]
    (by simp) ("b") ({ editCount := 6 }) (by simp)
  refine ⟨⟨by simp, by simp⟩, h.1.mpr (by right; right; right; left; decide), ?_⟩
  intro p hp hpf
  exact ((h.2 p hp hpf).2.2.2.1).mpr (by decide)

/-- The lazily viewed record agrees with the store view on
`totalTimeSpent`. -/
theorem tts_getD (s : TrackState) (f : String) :
    ((s.fieldMetrics f).getD freshMetrics).totalTimeSpent = ttsOf s f := by
  unfold ttsOf
  cases s.fieldMetrics f <;> rfl

/-- One focus/blur round on field `f` (focus at a truthy, i.e.
nonzero, time `tf`, blur at `tb`) adds exactly `tb - tf` to the
field's accumulated time. -/
theorem tts_focus_blur (f : String) (tf tb : Nat) (s : TrackState)
    (h : 0 < tf) :
    ttsOf (onBlur f tb (onFocus f tf s)) f = ttsOf s f + (tb - tf) := by
  have hcond : (onFocus f tf s).currentFocusedField = some f ∧
      truthyTime (onFocus f tf s).fieldFocusStartTime = true := by
    refine ⟨rfl, ?_⟩
    simp [onFocus, truthyTime]
    omega
  have hm : (onFocus f tf s).fieldMetrics f =
      some { (s.fieldMetrics f).getD freshMetrics with
               focusCount := ((s.fieldMetrics f).getD freshMetrics).focusCount + 1 } := by
    simp [onFocus]
  unfold onBlur
  rw [if_pos hcond, hm]
  show ttsOf _ f = _
  unfold ttsOf
  simp only [if_pos rfl]
  rw [tts_getD]
  rfl

/-- Accumulated time over a whole alternating focus/blur sequence on
one field: the inductive core of C4. -/
theorem tts_pairs (f : String) (pairs : List (Nat × Nat)) :
    ∀ s : TrackState, (∀ p ∈ pairs, 0 < p.1) →
      ttsOf (applyFocusBlurPairs f pairs s) f
        = ttsOf s f + (pairs.map fun p => p.2 - p.1).sum := by
  induction pairs with
  | nil =>
      intro s _
      simp [applyFocusBlurPairs]
  | cons pr rest ih =>
      intro s hpos
      obtain ⟨tf, tb⟩ := pr
      have h1 : 0 < tf := hpos (tf, tb) (List.mem_cons_self _ _)
      show ttsOf (applyFocusBlurPairs f rest (onBlur f tb (onFocus f tf s))) f = _
      rw [ih _ (fun p hp => hpos p (List.mem_cons_of_mem _ hp)),
          tts_focus_blur f tf tb s h1]
      simp only [List.map_cons, List.sum_cons]
      omega

/-- C4: over any alternating focus/blur sequence on one field (focus
times nonzero, as `performance.now()` is after page start), the
field's `totalTimeSpent` grows by exactly the sum of the blur − focus
differences; a blur accrues nothing when the blurred field is not the
tracked focused field; and the focused-field tracking is one single
identifier, set by focus and cleared by blur. -/
theorem c4_time_accrual (f : String) (pairs : List (Nat × Nat))
    (s : TrackState) (hpos : ∀ p ∈ pairs, 0 < p.1) :
    ttsOf (applyFocusBlurPairs f pairs s) f
      = ttsOf s f + (pairs.map fun p => p.2 - p.1).sum ∧
    (∀ (g fld : String) (now : Nat) (t : TrackState),
        t.currentFocusedField ≠ some fld →
        ttsOf (onBlur fld now t) g = ttsOf t g) ∧
    (∀ (t : TrackState) (g₁ g₂ : String),
        t.currentFocusedField = some g₁ → t.currentFocusedField = some g₂ →
        g₁ = g₂) ∧
    (∀ (fld : String) (now : Nat) (t : TrackState),
        (onFocus fld now t).currentFocusedField = some fld ∧
        (onBlur fld now t).currentFocusedField = none) := by
  refine ⟨tts_pairs f pairs s hpos, ?_, ?_, ?_⟩
  · intro g fld now t hne
    have hcond : ¬ (t.currentFocusedField = some fld ∧
        truthyTime t.fieldFocusStartTime = true) := by
      intro hc
      exact hne hc.1
    unfold onBlur
    rw [if_neg hcond]
    rfl
  · intro t g₁ g₂ h1 h2
    rw [h1] at h2
    exact Option.some.injEq .. ▸ h2
  · intro fld now t
    exact ⟨rfl, rfl⟩

/-- Closed witness for C4: two rounds on one field, focus at 1 ms and
10 ms, blurs at 501 ms and 40 ms, accrue 500 + 30 ms. -/
theorem c4_witness :
    (∀ p ∈ [((1 : Nat), (501 : Nat)), (10, 40)], 0 < p.1) ∧
    ttsOf (applyFocusBlurPairs ("a") [(1, 501), (10, 40)] trackInit) ("a")
      = ttsOf trackInit ("a")
        + ([((1 : Nat), (501 : Nat)), (10, 40)].map fun p => p.2 - p.1).sum :=
  ⟨by decide,
   (c4_time_accrual ("a") [(1, 501), (10, 40)] trackInit (by decide)).1⟩

/-- C8: a change notice with a zero-length value sample increments
`clearCount` exactly once when the previously recorded
`lastValueLength` was nonzero, and not at all when it was already
zero; the sample then becomes the new `lastValueLength`, so a second
consecutive zero-length sample never increments `clearCount` again. -/
theorem c8_clear_detection (f : String) (v v₂ : Option ValidityInfo)
    (s : TrackState) :
    (mOf (onChange f (some 0) v s) f).clearCount
      = (mOf s f).clearCount + (if 0 < (mOf s f).lastValueLength then 1 else 0) ∧
    (mOf (onChange f (some 0) v s) f).lastValueLength = 0 ∧
    (mOf (onChange f (some 0) v₂ (onChange f (some 0) v s)) f).clearCount
      = (mOf (onChange f (some 0) v s) f).clearCount := by
  have key : ∀ (t : TrackState) (w : Option ValidityInfo),
      (mOf (onChange f (some 0) w t) f).clearCount
        = (mOf t f).clearCount + (if 0 < (mOf t f).lastValueLength then 1 else 0) ∧
      (mOf (onChange f (some 0) w t) f).lastValueLength = 0 := by
    intro t w
    unfold onChange mOf
    simp only [if_pos rfl, Option.getD_some]
    cases w with
    | none =>
        by_cases hlen : 0 < ((t.fieldMetrics f).getD freshMetrics).lastValueLength <;>
          simp [hlen]
    | some vv =>
        by_cases hlen : 0 < ((t.fieldMetrics f).getD freshMetrics).lastValueLength <;>
          by_cases hv : vv.valid = false <;>
            simp [hlen, hv]
  refine ⟨(key s v).1, (key s v).2, ?_⟩
  rw [(key (onChange f (some 0) v s) v₂).1, (key s v).2]
  simp

/-- The coalescer's timer count stays at most one along any run. -/
theorem coStep_timers_le {α : Type} (maxRecords : Nat) (ops : List (CoOp α)) :
    ∀ s : CoState α, s.timers ≤ 1 →
      (ops.foldl (coStep maxRecords) s).timers ≤ 1 := by
  induction ops with
  | nil =>
      intro s h
      simpa using h
  | cons op rest ih =>
      intro s h
      rw [List.foldl_cons]
      apply ih
      cases op with
      | notices ns =>
          show (onChangeNotices ns s).timers ≤ 1
          by_cases h0 : s.timers = 0
          · simp [onChangeNotices, h0]
          · simp only [onChangeNotices, h0, if_false]
            exact h
      | fire =>
          show (if s.timers = 0 then s else (mutationTimerFire maxRecords s).1).timers ≤ 1
          by_cases h0 : s.timers = 0
          · simp [h0]
          · simp [mutationTimerFire, h0]

/-- C7: along every run of the coalescer from its initial state at
most one coalescing timer is outstanding; a firing timer drains at
most `maxMutationRecordsPerBatch` notices off the front of the buffer
(batch ++ remainder reconstructs the buffer) into exactly one emitted
record and clears the timer; and the observer callback appends its
notices at the back and arms the timer exactly when none is
outstanding — so the first notice delivery after a drain rearms it. -/
theorem c7_coalescer_invariants (α : Type) (maxRecords : Nat) :
    (∀ ops : List (CoOp α),
        ((ops.foldl (coStep maxRecords) coInit).timers ≤ 1)) ∧
    (∀ s : CoState α,
        (mutationTimerFire maxRecords s).2 = [s.buffer.take maxRecords] ∧
        (s.buffer.take maxRecords).length ≤ maxRecords ∧
        s.buffer.take maxRecords ++ (mutationTimerFire maxRecords s).1.buffer
          = s.buffer ∧
        (mutationTimerFire maxRecords s).1.timers = 0) ∧
    (∀ (s : CoState α) (ns : List α),
        (onChangeNotices ns s).timers = (if s.timers = 0 then 1 else s.timers) ∧
        (onChangeNotices ns s).buffer = s.buffer ++ ns) := by
  refine ⟨?_, ?_, ?_⟩
  · intro ops
    exact coStep_timers_le maxRecords ops coInit (by simp [coInit])
  · intro s
    refine ⟨rfl, ?_, List.take_append_drop _ _, rfl⟩
    simp only [List.length_take]
    omega
  · intro s ns
    constructor
    · by_cases h0 : s.timers = 0 <;> simp [onChangeNotices, h0]
    · by_cases h0 : s.timers = 0 <;> simp [onChangeNotices, h0]

/-- A host environment whose `document.querySelector` throws: the
configured form selector is syntactically invalid CSS. -/
def c5Env : HostEnv :=
  { queryResult := .thrown, freshSessionId := 1, hasMutationObserver := true }

/-- C5 (code bug): on a first `init` with a syntactically invalid form
selector, the `document.querySelector` exception escapes `FXT.init` —
there is no `try`/`catch` around it, contradicting the requirement
that the public start operation never throws.  (`FXT.stop`, by
contrast, wraps its whole body in `try`/`catch`.) -/
theorem c5_init_exception_escapes :
    fxtInit0.isInitialized = false ∧ (init {} c5Env fxtInit0).2 = some () := by
  exact ⟨rfl, rfl⟩

/-- A state in which both the periodic flush timer and the coalescing
timer are armed. -/
def c6State : FXTState :=
  { fxtInit0 with
      isInitialized := true
      flushTimerArmed := true
      mutationTimerArmed := true }

/-- C6 counterexample: calling `stop` from a state where the
coalescing (mutation) timer is pending leaves that timer outstanding —
`FXT.stop` clears only `FXT._flushTimer`, never `FXT._mutationTimer` —
so the claim that after `stop` neither timer is outstanding is false. -/
theorem c6_counterexample :
    ¬ ((stop c6State).flushTimerArmed = false ∧
       (stop c6State).mutationTimerArmed = false) := by
  intro h
  have h2 := h.2
  rw [show (stop c6State).mutationTimerArmed = true from rfl] at h2
  exact Bool.noConfusion h2

/-- C6 amended: explicit `stop` cancels the periodic flush timer, but
the pending coalescing (mutation) timer is not cancelled — it is left
in whatever state it had before the call. -/
theorem c6_amended_stop_timers (s : FXTState) :
    (stop s).flushTimerArmed = false ∧
    (stop s).mutationTimerArmed = s.mutationTimerArmed := by
  exact ⟨rfl, rfl⟩

/-- C9: a second `init` while initialized is a no-op returning the
existing instance: no exception, no new session identifier, no state
change at all. -/
theorem c9_second_init_noop (cfg : Config) (env : HostEnv) (s : FXTState)
    (h : s.isInitialized = true) :
    init cfg env s = (s, none) := by
  simp [init, h]

/-- A concrete initialized state for the C9 witness. -/
def c9State : FXTState := { fxtInit0 with isInitialized := true, sessionId := some 7 }

/-- Closed witness for C9: a second `init` on an initialized state with
any configuration and environment returns it untouched. -/
theorem c9_witness :
    c9State.isInitialized = true ∧
    init {} ⟨.found, 11, true⟩ c9State = (c9State, none) :=
  ⟨rfl, c9_second_init_noop {} ⟨.found, 11, true⟩ c9State rfl⟩

/-- C10 (implicit): `stop` clears the initialized flag, so an `init`
after `stop` is not a no-op: it runs the full initialization again —
fresh session identifier taken from the environment, listeners
re-attached, periodic flush and heartbeat timers re-armed — despite the
spec declaring the Stopped state terminal. -/
theorem c10_reinit_after_stop (cfg : Config) (env : HostEnv) (s : FXTState)
    (hq : env.queryResult = QueryResult.found) :
    (stop s).isInitialized = false ∧
    (init cfg env (stop s)).2 = none ∧
    (init cfg env (stop s)).1.isInitialized = true ∧
    (init cfg env (stop s)).1.sessionId = some env.freshSessionId ∧
    (init cfg env (stop s)).1.flushTimerArmed = true ∧
    (init cfg env (stop s)).1.heartbeatArmed = true ∧
    (init cfg env (stop s)).1.listenersAttached = true ∧
    (s.sessionId ≠ some env.freshSessionId →
      (init cfg env (stop s)).1.sessionId ≠ s.sessionId) := by
  have hs : (stop s).isInitialized = false := rfl
  refine ⟨hs, ?_, ?_, ?_, ?_, ?_, ?_, ?_⟩ <;>
    simp only [init, hs, Bool.false_eq_true, if_false, hq] <;>
    by_cases hc : cfg.enableConsoleWrap <;>
      simp [initRest, hc]
  · intro hne h
    rw [h] at hne
    exact hne rfl
  · intro hne h
    rw [h] at hne
    exact hne rfl

/-- A host environment for the C10 witness: valid selector, form found,
fresh session id 42. -/
def c10Env : HostEnv :=
  { queryResult := .found, freshSessionId := 42, hasMutationObserver := true }

/-- An initialized state with session id 7 for the C10 witness. -/
def c10State : FXTState :=
  { fxtInit0 with isInitialized := true, sessionId := some 7 }

/-- Closed witness for C10: after `stop`, `init` runs again and the
session identifier changes from 7 to the environment's fresh 42. -/
theorem c10_witness :
    c10Env.queryResult = QueryResult.found ∧
    (stop c10State).isInitialized = false ∧
    (init {} c10Env (stop c10State)).1.sessionId = some c10Env.freshSessionId ∧
    (init {} c10Env (stop c10State)).1.sessionId ≠ c10State.sessionId := by
  have h := c10_reinit_after_stop {} c10Env c10State rfl
  exact ⟨rfl, h.1, h.2.2.2.1, h.2.2.2.2.2.2.2 (by decide)⟩

end FXT
